import Mathlib

/-!
Verification of the change-detection and sync-dispatch engine of
`opencode-auth-sync`: the SHA-256 content fingerprint (`computeHash`), the
credential-file watcher (`src/lib/watcher.ts`), and the secret-sync
dispatcher (`src/lib/sync.ts`, `src/lib/github-http.ts`).

External effects (the shell invocation of the `gh` CLI, `fetch`, libsodium
sealed-box encryption, `readFile`, `JSON.parse`, chokidar events and timers)
are modelled as explicit outcome values fed to the embedded functions; the
control flow acting on those outcomes is translated line by line from the
TypeScript source.
-/

namespace AuthSync

/-! ### SHA-256 (`computeHash` in `src/lib/watcher.ts`)

`computeHash` is `createHash("sha256").update(content).digest("hex")`: the
SHA-256 digest of the UTF-8 bytes of the content, rendered as 64 lowercase
hex characters.  Implemented here over `Nat` with explicit `% 2^32`
masking.  Bytes are `Nat` values below 256. -/

def mask32 (n : Nat) : Nat := n % 4294967296

def add32 (a b : Nat) : Nat := mask32 (a + b)

def rotr32 (n x : Nat) : Nat := mask32 ((x >>> n) ||| (x <<< (32 - n)))

def not32 (x : Nat) : Nat := x ^^^ 4294967295

def bsig0 (x : Nat) : Nat := rotr32 2 x ^^^ rotr32 13 x ^^^ rotr32 22 x

def bsig1 (x : Nat) : Nat := rotr32 6 x ^^^ rotr32 11 x ^^^ rotr32 25 x

def ssig0 (x : Nat) : Nat := rotr32 7 x ^^^ rotr32 18 x ^^^ (x >>> 3)

def ssig1 (x : Nat) : Nat := rotr32 17 x ^^^ rotr32 19 x ^^^ (x >>> 10)

def chFn (x y z : Nat) : Nat := (x &&& y) ^^^ (not32 x &&& z)

def majFn (x y z : Nat) : Nat := (x &&& y) ^^^ (x &&& z) ^^^ (y &&& z)

/-- The 64 SHA-256 round constants of FIPS 180-4, in decimal. -/
def sha256K : List Nat :=
  [1116352408, 1899447441, 3049323471, 3921009573, 961987163, 1508970993,
   2453635748, 2870763221, 3624381080, 310598401, 607225278, 1426881987,
   1925078388, 2162078206, 2614888103, 3248222580, 3835390401, 4022224774,
   264347078, 604807628, 770255983, 1249150122, 1555081692, 1996064986,
   2554220882, 2821834349, 2952996808, 3210313671, 3336571891, 3584528711,
   113926993, 338241895, 666307205, 773529912, 1294757372, 1396182291,
   1695183700, 1986661051, 2177026350, 2456956037, 2730485921, 2820302411,
   3259730800, 3345764771, 3516065817, 3600352804, 4094571909, 275423344,
   430227734, 506948616, 659060556, 883997877, 958139571, 1322822218,
   1537002063, 1747873779, 1955562222, 2024104815, 2227730452, 2361852424,
   2428436474, 2756734187, 3204031479, 3329325298]

/-- The eight SHA-256 initial hash values of FIPS 180-4, in decimal. -/
def shaInit : List Nat :=
  [1779033703, 3144134277, 1013904242, 2773480762, 1359893119, 2600822924,
   528734635, 1541459225]

/-- Big-endian 8-byte encoding of the bit length, as SHA-256 padding requires. -/
def lenBytes (bitLen : Nat) : List Nat :=
  [(bitLen >>> 56) &&& 255, (bitLen >>> 48) &&& 255, (bitLen >>> 40) &&& 255,
   (bitLen >>> 32) &&& 255, (bitLen >>> 24) &&& 255, (bitLen >>> 16) &&& 255,
   (bitLen >>> 8) &&& 255, bitLen &&& 255]

/-- SHA-256 padding: append 0x80, zero bytes to 56 mod 64, then the bit length. -/
def padMessage (msg : List Nat) : List Nat :=
  msg ++ [0x80] ++ List.replicate ((119 - msg.length % 64) % 64) 0 ++ lenBytes (msg.length * 8)

/-- Group bytes into 32-bit big-endian words. -/
def wordsOfBytes : List Nat → List Nat
  | b0 :: b1 :: b2 :: b3 :: rest =>
      ((((b0 <<< 8) ||| b1) <<< 8 ||| b2) <<< 8 ||| b3) :: wordsOfBytes rest
  | _ => []

/-- Extend the 16 message-schedule words to 64. -/
def extendWords (ws : Array Nat) : Array Nat :=
  (List.range 48).foldl
    (fun a j =>
      let i := j + 16
      a.push (add32 (add32 (ssig1 (a.getD (i - 2) 0)) (a.getD (i - 7) 0))
                    (add32 (ssig0 (a.getD (i - 15) 0)) (a.getD (i - 16) 0))))
    ws

structure ShaState where
  a : Nat
  b : Nat
  c : Nat
  d : Nat
  e : Nat
  f : Nat
  g : Nat
  h : Nat
deriving Repr, DecidableEq

def shaRound (k w : Nat) (s : ShaState) : ShaState :=
  let t1 := add32 s.h (add32 (bsig1 s.e) (add32 (chFn s.e s.f s.g) (add32 k w)))
  let t2 := add32 (bsig0 s.a) (majFn s.a s.b s.c)
  ⟨add32 t1 t2, s.a, s.b, s.c, add32 s.d t1, s.e, s.f, s.g⟩

def stateOfList : List Nat → ShaState
  | [a, b, c, d, e, f, g, h] => ⟨a, b, c, d, e, f, g, h⟩
  | _ => ⟨0, 0, 0, 0, 0, 0, 0, 0⟩

def compressBlock (hv : ShaState) (block : List Nat) : ShaState :=
  let ws := extendWords (wordsOfBytes block).toArray
  let s := (List.zip sha256K ws.toList).foldl (fun st kw => shaRound kw.1 kw.2 st) hv
  ⟨add32 hv.a s.a, add32 hv.b s.b, add32 hv.c s.c, add32 hv.d s.d,
   add32 hv.e s.e, add32 hv.f s.f, add32 hv.g s.g, add32 hv.h s.h⟩

/-- Split a byte list into 64-byte blocks; the fuel argument (any bound on
the number of blocks, the caller passes the byte count) makes the recursion
structural. -/
def toBlocksF : Nat → List Nat → List (List Nat)
  | _, [] => []
  | 0, _ :: _ => []
  | Nat.succ fuel, b :: rest =>
      ((b :: rest).take 64) :: toBlocksF fuel ((b :: rest).drop 64)

def toBlocks (l : List Nat) : List (List Nat) := toBlocksF l.length l

def wordBytes (w : Nat) : List Nat :=
  [(w >>> 24) &&& 255, (w >>> 16) &&& 255, (w >>> 8) &&& 255, w &&& 255]

/-- SHA-256 digest of a byte list, as 32 digest bytes. -/
def sha256 (msg : List Nat) : List Nat :=
  let hv := (toBlocks (padMessage msg)).foldl compressBlock (stateOfList shaInit)
  ([hv.a, hv.b, hv.c, hv.d, hv.e, hv.f, hv.g, hv.h].map wordBytes).flatten

/-- UTF-8 encoding of one character, matching what Node's hashing applies
to a JavaScript string. -/
def utf8Bytes (c : Char) : List Nat :=
  let n := c.toNat
  if n < 0x80 then [n]
  else if n < 0x800 then
    [0xC0 ||| (n >>> 6), 0x80 ||| (n &&& 0x3F)]
  else if n < 0x10000 then
    [0xE0 ||| (n >>> 12), 0x80 ||| ((n >>> 6) &&& 0x3F), 0x80 ||| (n &&& 0x3F)]
  else
    [0xF0 ||| (n >>> 18), 0x80 ||| ((n >>> 12) &&& 0x3F),
     0x80 ||| ((n >>> 6) &&& 0x3F), 0x80 ||| (n &&& 0x3F)]

def strBytes (s : String) : List Nat := (s.data.map utf8Bytes).flatten

def hexDigit (n : Nat) : Char := if n < 10 then Char.ofNat (48 + n) else Char.ofNat (87 + n)

def byteHex (b : Nat) : List Char := [hexDigit (b / 16), hexDigit (b % 16)]

/-- `computeHash` from `src/lib/watcher.ts`:
`createHash("sha256").update(content).digest("hex")`. -/
def computeHash (s : String) : String := String.mk (((sha256 (strBytes s)).map byteHex).flatten)

/-! ### Data model (`src/lib/types.ts`) -/

/-- `SyncResult` from `src/lib/types.ts`; the optional `error` field
(`error?: string`) is an `Option`, `none` standing for an absent field. -/
structure SyncResult where
  repository : String
  success : Bool
  error : Option String
deriving Repr, DecidableEq

/-- `SyncSummary` from `src/lib/types.ts`. -/
structure SyncSummary where
  total : Nat
  successful : Nat
  failed : Nat
  results : List SyncResult
deriving Repr, DecidableEq

/-! ### CLI transport dispatcher (`src/lib/sync.ts`)

The shell call  `$`gh secret set ...`.nothrow().quiet()`  either resolves to
a process result (exit code plus captured stderr) or rejects; `ShellOutcome`
is that environment-supplied outcome, one per transport invocation.  The
dispatcher's loop is instrumented to also return the list of transport
invocations it performs, in order. -/

inductive ShellOutcome where
  | completed (exitCode : Int) (stderrText : String)
  | thrown (message : String)
deriving Repr, DecidableEq

/-- One `transport.setSecret` invocation as observed by the transport:
which repository, secret name and secret value it was called with. -/
structure TransportCall where
  repository : String
  secretName : String
  secretValue : String
deriving Repr, DecidableEq

/-- `syncToRepoGh` from `src/lib/sync.ts`: runs `gh secret set` and converts
the outcome; a rejection is caught and becomes a failure result carrying the
error's message, a nonzero exit code becomes a failure result carrying the
captured stderr, exit code 0 a success with no error field. -/
def syncToRepoGh (outcome : ShellOutcome) (repository _secretName _secretValue : String) :
    SyncResult :=
  match outcome with
  | .completed exitCode stderrText =>
      { repository := repository
        success := exitCode == 0
        error := if exitCode != 0 then some stderrText else none }
  | .thrown message =>
      { repository := repository, success := false, error := some message }

/-- The `for (const repo of repositories)` loop of `syncToRepositoriesGh`:
`shell i` is the outcome of the i-th shell invocation.  Returns the
accumulated results together with the trace of transport invocations. -/
def ghRun (shell : Nat → ShellOutcome) (repositories : List String)
    (secretName secretValue : String) (i : Nat) :
    List SyncResult × List TransportCall :=
  match repositories with
  | [] => ([], [])
  | repo :: rest =>
      let result := syncToRepoGh (shell i) repo secretName secretValue
      let p := ghRun shell rest secretName secretValue (i + 1)
      (result :: p.1, ⟨repo, secretName, secretValue⟩ :: p.2)

/-- `syncToRepositoriesGh` from `src/lib/sync.ts`: sequential dispatch over
the repositories, then the summary counts from the collected results. -/
def syncToRepositoriesGh (shell : Nat → ShellOutcome) (repositories : List String)
    (secretName secretValue : String) : SyncSummary :=
  let results := (ghRun shell repositories secretName secretValue 0).1
  { total := repositories.length
    successful := (results.filter (fun r => r.success)).length
    failed := (results.filter (fun r => !r.success)).length
    results := results }

/-! ### HTTP transport (`src/lib/github-http.ts`)

`githubFetch` wraps `fetch` against the GitHub API: a rejection anywhere in
the `try` (including `response.json()`) yields `{ok:false, status:0,
error:message}`; a non-ok response yields `{ok:false, status, error:body
text}`; a 204 yields `{ok:true}` with no data; any other ok response yields
the decoded data.  `FetchOutcome` is the environment-supplied behaviour of
one such call. -/

structure GithubPublicKey where
  key_id : String
  key : String
deriving Repr, DecidableEq

inductive FetchOutcome (α : Type) where
  | thrown (message : String)
  | httpError (status : Nat) (body : String)
  | noContent
  | jsonOk (status : Nat) (value : α)
  | jsonThrown (status : Nat) (message : String)
deriving Repr

structure FetchResult (α : Type) where
  ok : Bool
  status : Nat
  data : Option α
  error : Option String
deriving Repr

/-- `githubFetch` from `src/lib/github-http.ts`. -/
def githubFetch {α : Type} (out : FetchOutcome α) : FetchResult α :=
  match out with
  | .thrown message => ⟨false, 0, none, some message⟩
  | .httpError status body => ⟨false, status, none, some body⟩
  | .noContent => ⟨true, 204, none, none⟩
  | .jsonOk status value => ⟨true, status, some value, none⟩
  | .jsonThrown _ message => ⟨false, 0, none, some message⟩

/-- JavaScript `a || b` on a possibly-undefined string: the default wins
when the string is absent or empty (both falsy). -/
def jsOr (o : Option String) (d : String) : String :=
  match o with
  | some s => if s == "" then d else s
  | none => d

/-- JavaScript template interpolation of a possibly-undefined string:
`undefined` prints as the text `undefined`. -/
def jsShow (o : Option String) : String := o.getD "undefined"

structure PublicKeyResult where
  ok : Bool
  key : Option GithubPublicKey
  error : Option String
deriving Repr

/-- `getRepoPublicKey` from `src/lib/github-http.ts`. -/
def getRepoPublicKey (out : FetchOutcome GithubPublicKey) : PublicKeyResult :=
  let result := githubFetch out
  if !result.ok then
    ⟨false, none, some (jsOr result.error ("HTTP " ++ toString result.status))⟩
  else
    ⟨true, result.data, none⟩

/-- Outcome of `encryptSecret` (libsodium sealed box, an external
collaborator): the base64 ciphertext, or a rejection. -/
inductive EncryptOutcome where
  | sealedBox (ciphertext : String)
  | thrown (message : String)
deriving Repr, DecidableEq

/-- The environment of one `setRepoSecretHttp` call: the outcome of the
public-key `GET`, of the encryption, and of the secret `PUT`. -/
structure HttpCallEnv where
  keyOut : FetchOutcome GithubPublicKey
  encOut : EncryptOutcome
  putOut : FetchOutcome Unit

/-- `setRepoSecretHttp` from `src/lib/github-http.ts`: fetch the public key
(failures become `Failed to get public key: ...`), encrypt (failures become
`Failed to encrypt secret: ...`), then `PUT` the secret (non-ok responses
become `result.error || HTTP status`); on success no error field is set. -/
def setRepoSecretHttp (env : HttpCallEnv) (repository _secretName _secretValue : String) :
    SyncResult :=
  let keyResult := getRepoPublicKey env.keyOut
  if !keyResult.ok || keyResult.key.isNone then
    { repository := repository
      success := false
      error := some ("Failed to get public key: " ++ jsShow keyResult.error) }
  else
    match env.encOut with
    | .thrown message =>
        { repository := repository
          success := false
          error := some ("Failed to encrypt secret: " ++ message) }
    | .sealedBox _ =>
        let result := githubFetch env.putOut
        if !result.ok then
          { repository := repository
            success := false
            error := some (jsOr result.error ("HTTP " ++ toString result.status)) }
        else
          { repository := repository, success := true, error := none }

/-- The `for (const repo of repositories)` loop of `syncToRepositoriesHttp`,
with the trace of transport invocations. -/
def httpRun (env : Nat → HttpCallEnv) (repositories : List String)
    (secretName secretValue : String) (i : Nat) :
    List SyncResult × List TransportCall :=
  match repositories with
  | [] => ([], [])
  | repo :: rest =>
      let result := setRepoSecretHttp (env i) repo secretName secretValue
      let p := httpRun env rest secretName secretValue (i + 1)
      (result :: p.1, ⟨repo, secretName, secretValue⟩ :: p.2)

/-- `syncToRepositoriesHttp` from `src/lib/github-http.ts`. -/
def syncToRepositoriesHttp (env : Nat → HttpCallEnv) (_token : String)
    (repositories : List String) (secretName secretValue : String) : SyncSummary :=
  let results := (httpRun env repositories secretName secretValue 0).1
  { total := repositories.length
    successful := (results.filter (fun r => r.success)).length
    failed := (results.filter (fun r => !r.success)).length
    results := results }

/-! ### Method selection (`src/lib/sync.ts`, options variant) -/

inductive GithubMethod where
  | gh
  | http
deriving Repr, DecidableEq

/-- `SyncOptions` from `src/lib/sync.ts`; `githubToken?: string` is an
`Option`, `none` standing for an absent field. -/
structure SyncOptions where
  method : GithubMethod
  githubToken : Option String := none

/-- JavaScript truthiness of a possibly-undefined string: falsy when absent
or empty, as tested by `if (!options.githubToken)`. -/
def truthyStr (o : Option String) : Bool :=
  match o with
  | some s => !(s == "")
  | none => false

/-- `syncToRepositories` from `src/lib/sync.ts`: with method `http` and a
falsy token, every repository is marked failed with the fixed message and
no transport is invoked; with a token, HTTP dispatch; otherwise `gh`
dispatch. -/
def syncToRepositories (shell : Nat → ShellOutcome) (env : Nat → HttpCallEnv)
    (repositories : List String) (secretName secretValue : String)
    (options : SyncOptions) : SyncSummary :=
  match options.method with
  | .http =>
      if !truthyStr options.githubToken then
        { total := repositories.length
          successful := 0
          failed := repositories.length
          results := repositories.map (fun repo =>
            { repository := repo
              success := false
              error := some "GitHub token is required for HTTP method" }) }
      else
        syncToRepositoriesHttp env (options.githubToken.getD "") repositories
          secretName secretValue
  | .gh => syncToRepositoriesGh shell repositories secretName secretValue

/-! ### Credential watcher (`src/lib/watcher.ts`)

`watchCredentials` keeps a mutable `lastHash : string | null` (seeded from
`options.storedHash ?? null`) and a debounce timer.  Its `handleChange`
reads the file, computes the SHA-256 fingerprint, returns early when it
equals `lastHash`, otherwise stores the new fingerprint and only then
`JSON.parse`s the content; any rejection inside the `try` (read failure or
parse failure) lands in the `catch`, which calls `onError`.

The read (`readFile`) and the decode (`JSON.parse`) are external effects:
an evaluation's read is a `ReadOutcome` and the decoder is a parameter
`decode : String → Except String OpenCodeAuth` (the `Except.error` payload
being the thrown `SyntaxError`'s message).  `handleChange` returns the new
`lastHash` and the list of callback invocations the evaluation performs. -/

/-- One credential entry of `OpenCodeAuth` (`src/lib/types.ts`): either an
OAuth entry or an API-key entry. -/
inductive AuthEntry where
  | oauth (refresh access : String) (expires : Nat)
  | api (key : String)
deriving Repr, DecidableEq

/-- `OpenCodeAuth` (`src/lib/types.ts`): a map from provider name to entry,
as an association list. -/
abbrev OpenCodeAuth : Type := List (String × AuthEntry)

/-- What one `readFile` of the credentials path produced: a rejection, or
the file's text. -/
inductive ReadOutcome where
  | failure (message : String)
  | content (text : String)
deriving Repr, DecidableEq

/-- A callback invocation performed by the watcher: `onCredentialsChange`
with parsed credentials, raw content and fingerprint, or `onError`. -/
inductive WatcherEvent where
  | credentialsChange (credentials : OpenCodeAuth) (raw : String) (hash : String)
  | error (message : String)
deriving DecidableEq

/-- `handleChange` from `src/lib/watcher.ts`, as a transition on the stored
fingerprint.  Note the order the source fixes: the fingerprint comparison
and the `lastHash = currentHash` assignment happen before `JSON.parse`, so
a parse failure reaches `onError` with the fingerprint already stored. -/
def handleChange (decode : String → Except String OpenCodeAuth)
    (lastHash : Option String) (read : ReadOutcome) :
    Option String × List WatcherEvent :=
  match read with
  | .failure message => (lastHash, [.error message])
  | .content text =>
      let currentHash := computeHash text
      if some currentHash = lastHash then
        (lastHash, [])
      else
        match decode text with
        | .ok credentials =>
            (some currentHash, [.credentialsChange credentials text currentHash])
        | .error message => (some currentHash, [.error message])

/-- A sequence of settled evaluations: fold `handleChange` over the read
outcomes, concatenating the callback invocations. -/
def runEvaluations (decode : String → Except String OpenCodeAuth)
    (lastHash : Option String) (reads : List ReadOutcome) :
    Option String × List WatcherEvent :=
  match reads with
  | [] => (lastHash, [])
  | r :: rest =>
      let p := handleChange decode lastHash r
      let q := runEvaluations decode p.1 rest
      (q.1, p.2 ++ q.2)

/-- Like `runEvaluations`, but keeping each evaluation's callback
invocations separate, so a statement can point at what a particular
evaluation did. -/
def runEvaluationsSteps (decode : String → Except String OpenCodeAuth)
    (lastHash : Option String) (reads : List ReadOutcome) :
    Option String × List (List WatcherEvent) :=
  match reads with
  | [] => (lastHash, [])
  | r :: rest =>
      let p := handleChange decode lastHash r
      let q := runEvaluationsSteps decode p.1 rest
      (q.1, p.2 :: q.2)

/-! ### Watcher lifecycle as an event system

The closure state of one `watchCredentials` instance: the stored
fingerprint, whether a debounce timer is pending, the queue of evaluations
whose `await readFile` has not yet resumed, and whether the stop handle has
run (timer cleared, `watcher.close()` called).  The labels are the atomic
steps of the single-threaded event loop:

* `fileEvent` — chokidar delivers `change`/`add`; the debounced handler
  (re)arms the timer.  A closed watcher delivers no events, so this is a
  no-op after stop.
* `timerFire read` — the debounce timer fires; `handleChange` starts and
  suspends at `await readFile`, whose eventual outcome is `read`.  A no-op
  when no timer is armed.
* `readComplete` — the oldest suspended evaluation resumes with its read
  outcome and runs the compare/store/parse/callback body.  The source puts
  no stopped-check in that body.
* `stop` — the returned stop handle: clear any pending timer, close the
  watch. -/

structure WatchState where
  lastHash : Option String
  timerArmed : Bool
  pendingReads : List ReadOutcome
  closed : Bool
deriving DecidableEq

inductive WatchLabel where
  | fileEvent
  | timerFire (read : ReadOutcome)
  | readComplete
  | stop
deriving DecidableEq

/-- One atomic step of the watcher's event loop; returns the new closure
state and the callback invocations the step performs. -/
def watchStep (decode : String → Except String OpenCodeAuth)
    (s : WatchState) (l : WatchLabel) : WatchState × List WatcherEvent :=
  match l with
  | .fileEvent =>
      if s.closed then (s, []) else ({ s with timerArmed := true }, [])
  | .timerFire read =>
      if s.timerArmed then
        ({ s with timerArmed := false, pendingReads := s.pendingReads ++ [read] }, [])
      else (s, [])
  | .readComplete =>
      match s.pendingReads with
      | [] => (s, [])
      | r :: rest =>
          let p := handleChange decode s.lastHash r
          ({ s with lastHash := p.1, pendingReads := rest }, p.2)
  | .stop => ({ s with timerArmed := false, closed := true }, [])

/-- Run a sequence of steps, collecting each step's callback invocations. -/
def watchRun (decode : String → Except String OpenCodeAuth)
    (s : WatchState) (ls : List WatchLabel) : WatchState × List (List WatcherEvent) :=
  match ls with
  | [] => (s, [])
  | l :: rest =>
      let p := watchStep decode s l
      let q := watchRun decode p.1 rest
      (q.1, p.2 :: q.2)

/-- The closure state `watchCredentials` sets up:
`lastHash = storedHash ?? null`, no timer, nothing in flight, not closed. -/
def initialState (storedHash : Option String) : WatchState :=
  { lastHash := storedHash, timerArmed := false, pendingReads := [], closed := false }

/-- The effect of the stop handle on the closure state. -/
def stopState (s : WatchState) : WatchState :=
  { s with timerArmed := false, closed := true }

/-! ### Helper lemmas -/

lemma syncToRepoGh_repository (o : ShellOutcome) (r n v : String) :
    (syncToRepoGh o r n v).repository = r := by
  cases o <;> rfl

lemma setRepoSecretHttp_repository (env : HttpCallEnv) (r n v : String) :
    (setRepoSecretHttp env r n v).repository = r := by
  unfold setRepoSecretHttp
  dsimp only
  split
  · rfl
  · split
    · rfl
    · split <;> rfl

lemma ghRun_map_repository (shell : Nat → ShellOutcome) (n v : String) :
    ∀ (repos : List String) (i : Nat),
      ((ghRun shell repos n v i).1).map SyncResult.repository = repos := by
  intro repos
  induction repos with
  | nil => intro i; rfl
  | cons r rest ih => intro i; simp [ghRun, syncToRepoGh_repository, ih]

lemma httpRun_map_repository (env : Nat → HttpCallEnv) (n v : String) :
    ∀ (repos : List String) (i : Nat),
      ((httpRun env repos n v i).1).map SyncResult.repository = repos := by
  intro repos
  induction repos with
  | nil => intro i; rfl
  | cons r rest ih => intro i; simp [httpRun, setRepoSecretHttp_repository, ih]

lemma ghRun_length (shell : Nat → ShellOutcome) (n v : String)
    (repos : List String) (i : Nat) :
    ((ghRun shell repos n v i).1).length = repos.length := by
  have h := congrArg List.length (ghRun_map_repository shell n v repos i)
  simpa using h

lemma httpRun_length (env : Nat → HttpCallEnv) (n v : String)
    (repos : List String) (i : Nat) :
    ((httpRun env repos n v i).1).length = repos.length := by
  have h := congrArg List.length (httpRun_map_repository env n v repos i)
  simpa using h

lemma length_filter_add {α : Type} (p : α → Bool) (l : List α) :
    (l.filter p).length + (l.filter fun a => !p a).length = l.length := by
  induction l with
  | nil => rfl
  | cons a t ih => cases h : p a <;> simp [List.filter_cons, h] <;> omega

lemma ghRun_calls (shell : Nat → ShellOutcome) (n v : String) :
    ∀ (repos : List String) (i : Nat),
      (ghRun shell repos n v i).2 = repos.map (fun repo => TransportCall.mk repo n v) := by
  intro repos
  induction repos with
  | nil => intro i; rfl
  | cons r rest ih => intro i; simp [ghRun, ih]

lemma httpRun_calls (env : Nat → HttpCallEnv) (n v : String) :
    ∀ (repos : List String) (i : Nat),
      (httpRun env repos n v i).2 = repos.map (fun repo => TransportCall.mk repo n v) := by
  intro repos
  induction repos with
  | nil => intro i; rfl
  | cons r rest ih => intro i; simp [httpRun, ih]

/-! ### Claims about the sync dispatcher -/

/-- Claim C2: for every list of targets and every transport outcome, the
`SyncSummary` returned by `syncToRepositories` satisfies
`total = results.length`, `successful + failed = total`, and the results
carry the input targets in input order, one entry per input target
(duplicates included, since the equality of the projected repository list
with the input list forces an entry-by-entry match). -/
theorem syncToRepositories_summary_invariants (shell : Nat → ShellOutcome)
    (env : Nat → HttpCallEnv) (repositories : List String)
    (secretName secretValue : String) (options : SyncOptions) :
    (syncToRepositories shell env repositories secretName secretValue options).total
        = (syncToRepositories shell env repositories secretName secretValue options).results.length
      ∧ (syncToRepositories shell env repositories secretName secretValue options).successful
          + (syncToRepositories shell env repositories secretName secretValue options).failed
        = (syncToRepositories shell env repositories secretName secretValue options).total
      ∧ (syncToRepositories shell env repositories secretName secretValue options).results.map
          SyncResult.repository = repositories := by
  rcases options with ⟨method, token⟩
  cases method with
  | gh =>
      refine ⟨?_, ?_, ?_⟩
      · simp [syncToRepositories, syncToRepositoriesGh, ghRun_length]
      · simp only [syncToRepositories, syncToRepositoriesGh]
        rw [length_filter_add]
        exact ghRun_length shell secretName secretValue repositories 0
      · simp [syncToRepositories, syncToRepositoriesGh, ghRun_map_repository]
  | http =>
      cases h : truthyStr token with
      | false =>
          refine ⟨?_, ?_, ?_⟩
          · simp [syncToRepositories, h]
          · simp [syncToRepositories, h]
          · simp [syncToRepositories, h, Function.comp_def]
      | true =>
          refine ⟨?_, ?_, ?_⟩
          · simp [syncToRepositories, h, syncToRepositoriesHttp, httpRun_length]
          · simp only [syncToRepositories, h, Bool.not_true, Bool.false_eq_true,
              if_false, syncToRepositoriesHttp]
            rw [length_filter_add]
            exact httpRun_length env secretName secretValue repositories 0
          · simp [syncToRepositories, h, syncToRepositoriesHttp, httpRun_map_repository]

/-- Claim C3: the dispatch loop of each transport variant performs exactly
one transport invocation per target, in input order, for every outcome
environment — in particular a failing outcome on an earlier target never
prevents the invocations for the later targets, since the call trace is
independent of the outcomes. -/
theorem dispatch_one_call_per_target :
    (∀ (shell : Nat → ShellOutcome) (repos : List String) (n v : String) (i : Nat),
        (ghRun shell repos n v i).2 = repos.map (fun repo => TransportCall.mk repo n v))
    ∧ (∀ (env : Nat → HttpCallEnv) (repos : List String) (n v : String) (i : Nat),
        (httpRun env repos n v i).2 = repos.map (fun repo => TransportCall.mk repo n v)) := by
  exact ⟨fun shell repos n v i => ghRun_calls shell n v repos i,
         fun env repos n v i => httpRun_calls env n v repos i⟩

/-- Claim C7: an empty target list is not an error: for every transport
environment and every options value, `syncToRepositories` returns exactly
`total = 0`, `successful = 0`, `failed = 0`, `results = []`. -/
theorem syncToRepositories_empty (shell : Nat → ShellOutcome) (env : Nat → HttpCallEnv)
    (secretName secretValue : String) (options : SyncOptions) :
    syncToRepositories shell env [] secretName secretValue options
      = { total := 0, successful := 0, failed := 0, results := [] } := by
  rcases options with ⟨method, token⟩
  cases method with
  | gh => rfl
  | http =>
      cases h : truthyStr token with
      | false => simp [syncToRepositories, h]
      | true => simp [syncToRepositories, h, syncToRepositoriesHttp, httpRun]

/-- Claim C6: with method `http` and a missing (or empty, hence falsy)
GitHub token, `syncToRepositories` raises nothing and returns a summary in
which every target appears as a failed result carrying exactly
`GitHub token is required for HTTP method`, with `successful = 0` and
`failed = total = repositories.length`. -/
theorem syncToRepositories_http_no_token (shell : Nat → ShellOutcome)
    (env : Nat → HttpCallEnv) (repositories : List String)
    (secretName secretValue : String) (token : Option String)
    (h : truthyStr token = false) :
    syncToRepositories shell env repositories secretName secretValue
        { method := GithubMethod.http, githubToken := token }
      = { total := repositories.length
          successful := 0
          failed := repositories.length
          results := repositories.map (fun repo =>
            { repository := repo
              success := false
              error := some "GitHub token is required for HTTP method" }) } := by
  simp [syncToRepositories, h]

def shellW : Nat → ShellOutcome := fun _ => ShellOutcome.completed 0 ""

def envW : Nat → HttpCallEnv :=
  fun _ => ⟨FetchOutcome.jsonOk 200 ⟨"kid", "k"⟩, EncryptOutcome.sealedBox "ct",
            FetchOutcome.noContent⟩

/-- Claim C6, witness: the configuration-error summary for two concrete
targets and an absent token. -/
theorem syncToRepositories_http_no_token_witness :
    syncToRepositories shellW envW ["a/b", "c/d"] "N" "V"
        { method := GithubMethod.http, githubToken := none }
      = { total := 2
          successful := 0
          failed := 2
          results :=
            [{ repository := "a/b", success := false
               error := some "GitHub token is required for HTTP method" },
             { repository := "c/d", success := false
               error := some "GitHub token is required for HTTP method" }] } := by
  have h := syncToRepositories_http_no_token shellW envW ["a/b", "c/d"] "N" "V" none rfl
  exact h

/-- Claim C9: a `SyncResult` produced by either transport path never
carries both a success flag and an error message: `success = true` implies
the optional `error` field is absent. -/
theorem syncResult_success_no_error :
    (∀ (o : ShellOutcome) (r n v : String),
        (syncToRepoGh o r n v).success = true → (syncToRepoGh o r n v).error = none)
    ∧ (∀ (env : HttpCallEnv) (r n v : String),
        (setRepoSecretHttp env r n v).success = true →
          (setRepoSecretHttp env r n v).error = none) := by
  constructor
  · intro o r n v h
    cases o with
    | completed exitCode stderrText =>
        simp only [syncToRepoGh] at h ⊢
        have hz : exitCode = 0 := by
          by_contra hne
          simp [hne] at h
        simp [hz]
    | thrown message => simp [syncToRepoGh] at h
  · intro env r n v
    unfold setRepoSecretHttp
    dsimp only
    split
    · simp
    · split
      · simp
      · split <;> simp

/-- Claim C9, witness: a successful CLI result and a successful HTTP result
at concrete inputs both carry no error field. -/
theorem syncResult_success_no_error_witness :
    (syncToRepoGh (ShellOutcome.completed 0 "") "a/b" "N" "V").error = none
    ∧ (setRepoSecretHttp ⟨FetchOutcome.jsonOk 200 ⟨"kid", "k"⟩,
        EncryptOutcome.sealedBox "ct", FetchOutcome.noContent⟩ "a/b" "N" "V").error = none := by
  exact ⟨syncResult_success_no_error.1 (ShellOutcome.completed 0 "") "a/b" "N" "V" rfl,
         syncResult_success_no_error.2 ⟨FetchOutcome.jsonOk 200 ⟨"kid", "k"⟩,
           EncryptOutcome.sealedBox "ct", FetchOutcome.noContent⟩ "a/b" "N" "V" rfl⟩

/-! ### Claims about transport error normalization -/

/-- Claim C5, counterexample: a non-2xx status on the HTTP transport's
public-key fetch (status 403, response body `forbidden`) produces a failure
result whose error text is `Failed to get public key: forbidden` — a
reformatted message, not the transport's diagnostic text `forbidden`
verbatim.  This falsifies the claim that every non-success transport status
yields the diagnostic text verbatim. -/
theorem setRepoSecretHttp_reformats_key_error :
    setRepoSecretHttp
        ⟨FetchOutcome.httpError 403 "forbidden", EncryptOutcome.sealedBox "ct",
         FetchOutcome.noContent⟩ "o/r" "N" "V"
      = { repository := "o/r", success := false
          error := some "Failed to get public key: forbidden" }
    ∧ ("Failed to get public key: forbidden" : String) ≠ "forbidden" := by
  exact ⟨rfl, by decide⟩

/-- Claim C5, amended: a rejection of the CLI transport call is caught and
becomes a failure result carrying the error's message; a nonzero exit code
becomes a failure result carrying the captured stderr verbatim; a non-2xx
status on the HTTP secret `PUT` carries the response body verbatim when the
body is non-empty, but an empty body is replaced by `HTTP <status>`; and a
failing public-key fetch carries its diagnostic prefixed with
`Failed to get public key: `. -/
theorem transport_error_normalization :
    (∀ (message repo n v : String),
        syncToRepoGh (ShellOutcome.thrown message) repo n v
          = { repository := repo, success := false, error := some message })
    ∧ (∀ (exitCode : Int) (stderrText repo n v : String), exitCode ≠ 0 →
        syncToRepoGh (ShellOutcome.completed exitCode stderrText) repo n v
          = { repository := repo, success := false, error := some stderrText })
    ∧ (∀ (key : GithubPublicKey) (ct : String) (status : Nat) (body repo n v : String),
        body ≠ "" →
        setRepoSecretHttp
            ⟨FetchOutcome.jsonOk 200 key, EncryptOutcome.sealedBox ct,
             FetchOutcome.httpError status body⟩ repo n v
          = { repository := repo, success := false, error := some body })
    ∧ (∀ (key : GithubPublicKey) (ct : String) (status : Nat) (repo n v : String),
        setRepoSecretHttp
            ⟨FetchOutcome.jsonOk 200 key, EncryptOutcome.sealedBox ct,
             FetchOutcome.httpError status ""⟩ repo n v
          = { repository := repo, success := false
              error := some ("HTTP " ++ toString status) })
    ∧ (∀ (status : Nat) (body : String) (enc : EncryptOutcome)
          (put : FetchOutcome Unit) (repo n v : String), body ≠ "" →
        setRepoSecretHttp ⟨FetchOutcome.httpError status body, enc, put⟩ repo n v
          = { repository := repo, success := false
              error := some ("Failed to get public key: " ++ body) }) := by
  refine ⟨fun message repo n v => rfl, ?_, ?_, ?_, ?_⟩
  · intro exitCode stderrText repo n v h
    have hb : (exitCode == 0) = false := beq_eq_false_iff_ne.mpr h
    simp [syncToRepoGh, hb, bne]
  · intro key ct status body repo n v h
    have hb : (body == "") = false := beq_eq_false_iff_ne.mpr h
    simp [setRepoSecretHttp, getRepoPublicKey, githubFetch, jsOr, hb]
  · intro key ct status repo n v
    simp [setRepoSecretHttp, getRepoPublicKey, githubFetch, jsOr]
  · intro status body enc put repo n v h
    have hb : (body == "") = false := beq_eq_false_iff_ne.mpr h
    cases enc <;>
      simp [setRepoSecretHttp, getRepoPublicKey, githubFetch, jsOr, jsShow, hb]

/-- Claim C5, witness: each normalization clause at a concrete input. -/
theorem transport_error_normalization_witness :
    syncToRepoGh (ShellOutcome.thrown "boom") "o/r" "N" "V"
      = { repository := "o/r", success := false, error := some "boom" }
    ∧ syncToRepoGh (ShellOutcome.completed 1 "denied") "o/r" "N" "V"
      = { repository := "o/r", success := false, error := some "denied" }
    ∧ setRepoSecretHttp
        ⟨FetchOutcome.jsonOk 200 ⟨"kid", "k"⟩, EncryptOutcome.sealedBox "ct",
         FetchOutcome.httpError 500 "server says no"⟩ "o/r" "N" "V"
      = { repository := "o/r", success := false, error := some "server says no" }
    ∧ setRepoSecretHttp
        ⟨FetchOutcome.jsonOk 200 ⟨"kid", "k"⟩, EncryptOutcome.sealedBox "ct",
         FetchOutcome.httpError 500 ""⟩ "o/r" "N" "V"
      = { repository := "o/r", success := false, error := some "HTTP 500" }
    ∧ setRepoSecretHttp
        ⟨FetchOutcome.httpError 404 "nf", EncryptOutcome.sealedBox "ct",
         FetchOutcome.noContent⟩ "o/r" "N" "V"
      = { repository := "o/r", success := false
          error := some "Failed to get public key: nf" } := by
  exact ⟨transport_error_normalization.1 "boom" "o/r" "N" "V",
         transport_error_normalization.2.1 1 "denied" "o/r" "N" "V" (by decide),
         transport_error_normalization.2.2.1 ⟨"kid", "k"⟩ "ct" 500 "server says no"
           "o/r" "N" "V" (by decide),
         transport_error_normalization.2.2.2.1 ⟨"kid", "k"⟩ "ct" 500 "o/r" "N" "V",
         transport_error_normalization.2.2.2.2 404 "nf" (EncryptOutcome.sealedBox "ct")
           FetchOutcome.noContent "o/r" "N" "V" (by decide)⟩

/-! ### Helper lemmas for the watcher -/

lemma handleChange_same_hash (decode : String → Except String OpenCodeAuth)
    (lastHash : Option String) (text : String)
    (h : some (computeHash text) = lastHash) :
    handleChange decode lastHash (ReadOutcome.content text) = (lastHash, []) := by
  simp [handleChange, h]

lemma handleChange_new_ok (decode : String → Except String OpenCodeAuth)
    (lastHash : Option String) (text : String) (credentials : OpenCodeAuth)
    (hd : decode text = Except.ok credentials)
    (hne : some (computeHash text) ≠ lastHash) :
    handleChange decode lastHash (ReadOutcome.content text)
      = (some (computeHash text),
         [WatcherEvent.credentialsChange credentials text (computeHash text)]) := by
  simp [handleChange, if_neg hne, hd]

lemma handleChange_new_error (decode : String → Except String OpenCodeAuth)
    (lastHash : Option String) (text message : String)
    (hd : decode text = Except.error message)
    (hne : some (computeHash text) ≠ lastHash) :
    handleChange decode lastHash (ReadOutcome.content text)
      = (some (computeHash text), [WatcherEvent.error message]) := by
  simp [handleChange, if_neg hne, hd]

lemma runEvaluations_same_hash_replicate (decode : String → Except String OpenCodeAuth)
    (text : String) (n : Nat) :
    runEvaluations decode (some (computeHash text))
        (List.replicate n (ReadOutcome.content text))
      = (some (computeHash text), []) := by
  induction n with
  | zero => rfl
  | succ k ih =>
      simp [List.replicate_succ, runEvaluations,
        handleChange_same_hash decode (some (computeHash text)) text rfl, ih]

/-- A decoder that always succeeds (with an empty credentials object), for
concrete watcher runs. -/
def decodeOkW : String → Except String OpenCodeAuth := fun _ => Except.ok []

/-- A decoder that always fails with message `bad`, standing for
`JSON.parse` on malformed content. -/
def decodeFailW : String → Except String OpenCodeAuth := fun _ => Except.error "bad"

/-! ### Claims about the watcher -/

/-- Claim C4: an evaluation whose computed fingerprint equals the stored
one does nothing (no callback, no state change); a watcher seeded with
`storedHash = computeHash content` issues zero callbacks across any number
of evaluations of that content; and after a first change callback, `n`
further evaluations of byte-identical content produce no further
callbacks — exactly one callback in total. -/
theorem watcher_hash_gate :
    (∀ (decode : String → Except String OpenCodeAuth) (lastHash : Option String)
        (text : String), some (computeHash text) = lastHash →
        handleChange decode lastHash (ReadOutcome.content text) = (lastHash, []))
    ∧ (∀ (decode : String → Except String OpenCodeAuth) (text : String) (n : Nat),
        runEvaluations decode (some (computeHash text))
            (List.replicate n (ReadOutcome.content text))
          = (some (computeHash text), []))
    ∧ (∀ (decode : String → Except String OpenCodeAuth) (h0 : Option String)
        (text : String) (credentials : OpenCodeAuth) (n : Nat),
        decode text = Except.ok credentials →
        some (computeHash text) ≠ h0 →
        runEvaluations decode h0 (List.replicate (n + 1) (ReadOutcome.content text))
          = (some (computeHash text),
             [WatcherEvent.credentialsChange credentials text (computeHash text)])) := by
  refine ⟨handleChange_same_hash, runEvaluations_same_hash_replicate, ?_⟩
  intro decode h0 text credentials n hd hne
  simp [List.replicate_succ, runEvaluations,
    handleChange_new_ok decode h0 text credentials hd hne,
    runEvaluations_same_hash_replicate]

/-- Claim C4, witness: the three clauses at concrete inputs (content `x`,
empty baseline or matching baseline, three deliveries). -/
theorem watcher_hash_gate_witness :
    handleChange decodeOkW (some (computeHash "x")) (ReadOutcome.content "x")
      = (some (computeHash "x"), [])
    ∧ runEvaluations decodeOkW (some (computeHash "x"))
        (List.replicate 3 (ReadOutcome.content "x"))
      = (some (computeHash "x"), [])
    ∧ runEvaluations decodeOkW none (List.replicate 3 (ReadOutcome.content "x"))
      = (some (computeHash "x"),
         [WatcherEvent.credentialsChange [] "x" (computeHash "x")]) := by
  exact ⟨watcher_hash_gate.1 decodeOkW (some (computeHash "x")) "x" rfl,
         watcher_hash_gate.2.1 decodeOkW "x" 3,
         watcher_hash_gate.2.2 decodeOkW none "x" [] 2 rfl (Option.some_ne_none _)⟩

/-- Claim C1, counterexample: an evaluation that reads content `x` (not
matching the stored fingerprint `none`) whose decode fails invokes
`onError` — but the stored fingerprint is updated to `computeHash "x"`,
not left unchanged: the source stores the fingerprint before `JSON.parse`
runs.  This falsifies the claim for the decode-failure case. -/
theorem watcher_decode_failure_updates_hash :
    handleChange decodeFailW none (ReadOutcome.content "x")
      = (some (computeHash "x"), [WatcherEvent.error "bad"])
    ∧ (handleChange decodeFailW none (ReadOutcome.content "x")).1 ≠ none := by
  have h1 : handleChange decodeFailW none (ReadOutcome.content "x")
      = (some (computeHash "x"), [WatcherEvent.error "bad"]) :=
    handleChange_new_error decodeFailW none "x" "bad" rfl (Option.some_ne_none _)
  exact ⟨h1, by rw [h1]; exact Option.some_ne_none _⟩

/-- Claim C1, amended: a read failure invokes `onError` with that error and
leaves the stored fingerprint unchanged; a decode failure invokes `onError`
with that error, but the stored fingerprint has already been updated to the
fingerprint of the (malformed) content. -/
theorem watcher_error_state :
    (∀ (decode : String → Except String OpenCodeAuth) (lastHash : Option String)
        (message : String),
        handleChange decode lastHash (ReadOutcome.failure message)
          = (lastHash, [WatcherEvent.error message]))
    ∧ (∀ (decode : String → Except String OpenCodeAuth) (lastHash : Option String)
        (text message : String),
        decode text = Except.error message →
        some (computeHash text) ≠ lastHash →
        handleChange decode lastHash (ReadOutcome.content text)
          = (some (computeHash text), [WatcherEvent.error message])) := by
  exact ⟨fun decode lastHash message => rfl, handleChange_new_error⟩

/-- Claim C1, witness: a concrete read failure leaves the baseline intact;
a concrete decode failure stores the new fingerprint. -/
theorem watcher_error_state_witness :
    handleChange decodeFailW (some (computeHash "y")) (ReadOutcome.failure "io")
      = (some (computeHash "y"), [WatcherEvent.error "io"])
    ∧ handleChange decodeFailW none (ReadOutcome.content "y")
      = (some (computeHash "y"), [WatcherEvent.error "bad"]) := by
  exact ⟨watcher_error_state.1 decodeFailW (some (computeHash "y")) "io",
         watcher_error_state.2 decodeFailW none "y" "bad" rfl (Option.some_ne_none _)⟩

set_option maxRecDepth 4000000 in
/-- Claim C10, counterexample: with an always-failing decoder, the read
sequence `u`, `v`, `u` (all malformed, `u` byte-identical to the earlier
`u`) makes `onError` fire at every evaluation: the intervening distinct
content `v` replaces the stored fingerprint, so the third evaluation of the
byte-identical malformed `u` is *not* suppressed and fires `onError`
again.  This falsifies "any subsequent evaluation that reads byte-identical
content is suppressed". -/
theorem watcher_error_refires_after_intervening_content :
    runEvaluationsSteps decodeFailW none
        [ReadOutcome.content "u", ReadOutcome.content "v", ReadOutcome.content "u"]
      = (some (computeHash "u"),
         [[WatcherEvent.error "bad"], [WatcherEvent.error "bad"],
          [WatcherEvent.error "bad"]]) := by
  decide

/-- Claim C10, amended: after a decode failure has been reported for some
byte content, subsequent evaluations re-reading byte-identical content are
suppressed by the fingerprint comparison — for as long as the stored
fingerprint remains that content's fingerprint (an intervening distinct
content resets it, after which the same malformed content fires `onError`
again): a run of `1 + n` consecutive evaluations of the same malformed
content fires `onError` exactly once. -/
theorem watcher_error_once_per_stable_content :
    ∀ (decode : String → Except String OpenCodeAuth) (h0 : Option String)
      (text message : String) (n : Nat),
      decode text = Except.error message →
      some (computeHash text) ≠ h0 →
      runEvaluations decode h0
          (ReadOutcome.content text :: List.replicate n (ReadOutcome.content text))
        = (some (computeHash text), [WatcherEvent.error message]) := by
  intro decode h0 text message n hd hne
  simp [runEvaluations, handleChange_new_error decode h0 text message hd hne,
    runEvaluations_same_hash_replicate]

/-- Claim C10, witness: five consecutive deliveries of the same malformed
content fire `onError` exactly once. -/
theorem watcher_error_once_per_stable_content_witness :
    runEvaluations decodeFailW none
        (ReadOutcome.content "u" :: List.replicate 4 (ReadOutcome.content "u"))
      = (some (computeHash "u"), [WatcherEvent.error "bad"]) := by
  exact watcher_error_once_per_stable_content decodeFailW none "u" "bad" 4 rfl
    (Option.some_ne_none _)

lemma watchStep_quiescent (decode : String → Except String OpenCodeAuth)
    (s : WatchState) (l : WatchLabel)
    (hc : s.closed = true) (ht : s.timerArmed = false) (hp : s.pendingReads = []) :
    watchStep decode s l = (s, []) := by
  rcases s with ⟨lh, ta, pr, cl⟩
  dsimp only at hc ht hp
  subst hc
  subst ht
  subst hp
  cases l <;> rfl

/-- Claim C8, counterexample: a trace in which the debounce timer has fired
and `handleChange` is suspended at `await readFile` when the stop handle
runs: the stop clears the (already fired) timer and closes the watch, yet
the suspended evaluation then resumes and invokes `onCredentialsChange` —
a callback after the stop handle has returned, which falsifies "after it
returns no further callback is ever invoked". -/
theorem watcher_callback_after_stop :
    watchRun decodeOkW (initialState none)
        [WatchLabel.fileEvent, WatchLabel.timerFire (ReadOutcome.content "x"),
         WatchLabel.stop, WatchLabel.readComplete]
      = ({ lastHash := some (computeHash "x"), timerArmed := false,
           pendingReads := [], closed := true },
         [[], [], [],
          [WatcherEvent.credentialsChange [] "x" (computeHash "x")]]) := by
  rfl

/-- Claim C8, amended: the stop handle cancels any pending debounce timer
and closes the watch; it is idempotent (a second stop is a no-op on the
state and emits nothing); and when no evaluation is in flight at the moment
of the call, no step of any subsequent trace invokes any callback (only an
evaluation already suspended at its file read when stop runs can still
deliver one callback). -/
theorem watcher_stop_guarantees :
    (∀ (decode : String → Except String OpenCodeAuth) (s : WatchState),
        watchStep decode s WatchLabel.stop = (stopState s, [])
        ∧ watchStep decode (stopState s) WatchLabel.stop = (stopState s, [])
        ∧ (stopState s).timerArmed = false ∧ (stopState s).closed = true)
    ∧ (∀ (decode : String → Except String OpenCodeAuth) (s : WatchState)
        (ls : List WatchLabel), s.pendingReads = [] →
        watchRun decode (stopState s) ls
          = (stopState s, ls.map (fun _ => ([] : List WatcherEvent)))) := by
  constructor
  · intro decode s
    exact ⟨rfl, rfl, rfl, rfl⟩
  · intro decode s ls hp
    induction ls with
    | nil => rfl
    | cons l rest ih =>
        simp [watchRun, watchStep_quiescent decode (stopState s) l rfl rfl hp, ih]

/-- Claim C8, witness: from a stopped watcher with nothing in flight, a
file event, a timer fire, a read completion and a second stop all leave the
state unchanged and invoke no callback. -/
theorem watcher_stop_guarantees_witness :
    watchStep decodeOkW (initialState none) WatchLabel.stop
      = (stopState (initialState none), [])
    ∧ watchRun decodeOkW (stopState (initialState none))
        [WatchLabel.fileEvent, WatchLabel.timerFire (ReadOutcome.content "x"),
         WatchLabel.readComplete, WatchLabel.stop]
      = (stopState (initialState none), [[], [], [], []]) := by
  exact ⟨(watcher_stop_guarantees.1 decodeOkW (initialState none)).1,
         watcher_stop_guarantees.2 decodeOkW (initialState none)
           [WatchLabel.fileEvent, WatchLabel.timerFire (ReadOutcome.content "x"),
            WatchLabel.readComplete, WatchLabel.stop] rfl⟩

end AuthSync
